import Mathlib

/-!
Verification development for the Turso dialect adapter of a relational
access framework.  The definitions below are a shallow embedding of the
query-execution layer (`packages/turso/src/query.js`) and the connection
lifecycle (`packages/turso/src/connection-manager.ts`): JavaScript values
become an inductive `JSVal`, JavaScript objects become association lists
in insertion order, thrown errors become `Except`, and engine calls
become explicit effect traces.
-/

namespace Turso

/-- Model of the JavaScript scalar values the adapter passes around:
`null`, `undefined`, booleans, (integral) numbers, strings and bigints. -/
inductive JSVal where
  | null
  | undefined
  | bool (b : Bool)
  | num (n : Int)
  | str (s : String)
  | bigint (n : Int)
deriving Repr, DecidableEq

/-- JavaScript truthiness (`Boolean(v)`), restricted to the values of
`JSVal`: `null`, `undefined`, `false`, `0`, `0n` and the empty string are
falsy, everything else is truthy. -/
def jsTruthy : JSVal → Bool
  | .null => false
  | .undefined => false
  | .bool b => b
  | .num n => n != 0
  | .str s => s != ""
  | .bigint n => n != 0

/-- JavaScript `ToPropertyKey` / string coercion for the values of
`JSVal`, used for object-key lookups such as `obj[v]`. -/
def jsKeyStr : JSVal → String
  | .null => "null"
  | .undefined => "undefined"
  | .bool b => if b then "true" else "false"
  | .num n => toString n
  | .str s => s
  | .bigint n => toString n

/-- The single-quote character, used by the table-info shaper. -/
def squote : Char := Char.ofNat 39

/-- A single-quote as a string. -/
def squoteStr : String := String.singleton squote

/-- `stringifyIfBigint` (query.js:21): bigints are converted to their
decimal string, every other value passes through unchanged. -/
def stringifyIfBigint (value : JSVal) : JSVal :=
  match value with
  | .bigint n => .str (toString n)
  | v => v

/-- The positional-parameter binding path of `run` (query.js:188):
`parameters.map(stringifyIfBigint)`. -/
def bindPositional (ps : List JSVal) : List JSVal :=
  ps.map stringifyIfBigint

/-! ### JavaScript object model

Objects are association lists in insertion order.  `hasOwn` and `getOwn`
model `Object.hasOwn` and property access; `objSet` models property
assignment (overwrite keeps the original insertion position). -/

/-- `Object.hasOwn (o, k)` on the association-list object model. -/
def hasOwn (o : List (String × JSVal)) (k : String) : Bool :=
  o.any (fun p => p.1 == k)

/-- Property read `o[k]`; a missing property reads as `undefined`. -/
def getOwn (o : List (String × JSVal)) (k : String) : JSVal :=
  match o.find? (fun p => p.1 == k) with
  | some p => p.2
  | none => .undefined

/-- Property assignment `o[k] = v`: an existing key is overwritten in
place, a new key is appended (JavaScript insertion order). -/
def objSet {α : Type} (o : List (String × α)) (k : String) (v : α) :
    List (String × α) :=
  match o with
  | [] => [(k, v)]
  | p :: rest => if p.1 == k then (k, v) :: rest else p :: objSet rest k v

/-! ### Placeholder scanning (the regex `\$(\w+)` of query.js:266) -/

/-- A regex `\w` word character: ASCII letter, digit or underscore. -/
def isWordChar (c : Char) : Bool :=
  c.isAlpha || c.isDigit || c = '_'

/-- Left-to-right scan of the SQL text for `$name` placeholders, the
model of repeatedly calling `exec` with the global regex `\$(\w+)`
(query.js:266-270).  The second argument is the scanner state: `none`
when not inside a candidate match, `some acc` when a `$` has been seen
and `acc` holds the word characters captured so far.  A `$` followed by
at least one word character yields the maximal word-character run as a
name; a `$` followed by none is skipped, with scanning resuming at the
very next character (as the regex engine does). -/
def extractParamNamesAux : List Char → Option (List Char) → List String
  | [], none => []
  | [], some acc => if acc.isEmpty then [] else [String.mk acc]
  | c :: rest, none =>
    if c = '$' then extractParamNamesAux rest (some [])
    else extractParamNamesAux rest none
  | c :: rest, some acc =>
    if isWordChar c then extractParamNamesAux rest (some (acc ++ [c]))
    else if acc.isEmpty then
      if c = '$' then extractParamNamesAux rest (some [])
      else extractParamNamesAux rest none
    else
      String.mk acc ::
        (if c = '$' then extractParamNamesAux rest (some [])
         else extractParamNamesAux rest none)

/-- The ordered list of `$`-placeholder names referenced by a SQL text. -/
def extractParamNames (query : String) : List String :=
  extractParamNamesAux query.toList none

/-- `_convertNamedParamsToPositional` (query.js:264-295): scans the SQL
for `$name` placeholders and resolves each name against the named map by
trying the sigil-prefixed key, then the bare key, then the first map key
not yet in the used-keys set, else `null`.  The used-keys set and output
list are threaded through a fold, mirroring the mutable `usedKeys` set
and the `map` of the source; `convertStep` is the body of the `map`
callback for one placeholder name. -/
def convertStep (namedParams : List (String × JSVal))
    (st : List String × List JSVal) (name : String) :
    List String × List JSVal :=
  let keys := namedParams.map (·.1)
  let usedKeys := st.1
  let acc := st.2
  let withSigil := "$" ++ name
  if hasOwn namedParams withSigil then
    (usedKeys ++ [withSigil], acc ++ [getOwn namedParams withSigil])
  else if hasOwn namedParams name then
    (usedKeys ++ [name], acc ++ [getOwn namedParams name])
  else
    match keys.find? (fun k => !usedKeys.contains k) with
    | some fallbackKey =>
      (usedKeys ++ [fallbackKey], acc ++ [getOwn namedParams fallbackKey])
    | none => (usedKeys, acc ++ [JSVal.null])

/-- The full binder: the placeholder names of the SQL text folded
through `convertStep` starting from an empty used-keys set. -/
def convertNamedParamsToPositional (query : String)
    (namedParams : List (String × JSVal)) : List JSVal :=
  ((extractParamNames query).foldl (convertStep namedParams) ([], [])).2

/-- The resolution strategy exactly as the specification words it
(spec §4.1): for each referenced name in order, try (1) the
sigil-prefixed key, (2) the bare key, (3) the first mapping key not yet
consumed by an earlier placeholder, (4) bind null; written as a direct
recursion carrying the used-keys set, to be compared with the
source-derived `convertNamedParamsToPositional`. -/
def resolveNamesSpec (m : List (String × JSVal)) :
    List String → List String → List JSVal
  | _, [] => []
  | used, n :: rest =>
    let withSigil := "$" ++ n
    if hasOwn m withSigil then
      getOwn m withSigil :: resolveNamesSpec m (used ++ [withSigil]) rest
    else if hasOwn m n then
      getOwn m n :: resolveNamesSpec m (used ++ [n]) rest
    else
      match (m.map (·.1)).find? (fun k => !used.contains k) with
      | some k => getOwn m k :: resolveNamesSpec m (used ++ [k]) rest
      | none => JSVal.null :: resolveNamesSpec m used rest

/-! ### Error classification (`formatError`, query.js:297-358) -/

/-- A raw engine error: its `code` and `message` properties, which are
all the classifier inspects. -/
structure EngineError where
  code : String
  message : String
deriving Repr, DecidableEq

/-- Substring containment on character lists (`String.prototype.includes`). -/
def listContainsSub (needle : List Char) : List Char → Bool
  | [] => needle.isEmpty
  | c :: rest => needle.isPrefixOf (c :: rest) || listContainsSub needle rest

/-- `hay.includes(needle)` of JavaScript. -/
def containsSub (hay needle : String) : Bool :=
  listContainsSub needle.toList hay.toList

/-- The lazy capture of the regex `columns (.*?) are`: starting at the
current position, try the empty capture first (the ` are` literal right
here); otherwise consume one character (the regex dot, which does not
match a line break) into the capture and retry. -/
def captureUntilAre : List Char → Option (List Char)
  | [] => none
  | c :: rest =>
    if (" are".toList).isPrefixOf (c :: rest) then some []
    else if c = '\n' || c = '\r' then none
    else (captureUntilAre rest).map (fun cap => c :: cap)

/-- Leftmost match of the regex `columns (.*?) are` (query.js:313): scan
for the first position where `columns ` occurs and a ` are` follows, and
return the lazily-minimal capture between them. -/
def matchColumnsAreAux : List Char → Option (List Char)
  | [] => none
  | c :: rest =>
    if ("columns ".toList).isPrefixOf (c :: rest) then
      match captureUntilAre ((c :: rest).drop 8) with
      | some cap => some cap
      | none => matchColumnsAreAux rest
    else matchColumnsAreAux rest

/-- `msg.match(/columns (.*?) are/)`, returning the first capture group. -/
def matchColumnsAre (msg : String) : Option String :=
  (matchColumnsAreAux msg.toList).map String.mk

/-- Leftmost match of the regex `UNIQUE constraint failed: (.*)`
(query.js:318): find the first occurrence of the literal and capture
greedily to the end of the line (the dot does not match a line break). -/
def matchUniqueFailedAux : List Char → Option (List Char)
  | [] => none
  | c :: rest =>
    if ("UNIQUE constraint failed: ".toList).isPrefixOf (c :: rest) then
      some (((c :: rest).drop 26).takeWhile (fun ch => !(ch = '\n' || ch = '\r')))
    else matchUniqueFailedAux rest

/-- `msg.match(/UNIQUE constraint failed: (.*)/)`, first capture group. -/
def matchUniqueFailed (msg : String) : Option String :=
  (matchUniqueFailedAux msg.toList).map String.mk

/-- Fuel-based splitting of a character list at every occurrence of a
(nonempty) separator, the model of `String.prototype.split`.  The fuel
is structurally decreasing and any fuel of at least the list length
yields the full split. -/
def jsSplitAux (sep : List Char) : Nat → List Char → List Char → List (List Char)
  | 0, l, cur => [cur.reverse ++ l]
  | fuel + 1, l, cur =>
    match l with
    | [] => [cur.reverse]
    | c :: rest =>
      if sep ≠ [] && sep.isPrefixOf (c :: rest) then
        cur.reverse :: jsSplitAux sep fuel ((c :: rest).drop sep.length) []
      else jsSplitAux sep fuel rest (c :: cur)

/-- `s.split(sep)` of JavaScript, for a nonempty separator. -/
def jsSplit (s sep : String) : List String :=
  (jsSplitAux sep.toList (s.toList.length + 1) s.toList []).map String.mk

/-- The unique-violation field extraction of `formatError`
(query.js:310-322): the pre-2.2 `columns x, y are` pattern first, then
the post-2.2 `UNIQUE constraint failed: table.x, table.y` pattern whose
entries are split at the first dot (`columnWithTable.split('.')[1]`; a
`none` entry models the JavaScript `undefined` produced when an entry
has no dot). -/
def extractUniqueFields (msg : String) : List (Option String) :=
  match matchColumnsAre msg with
  | some cap => (jsSplit cap ", ").map some
  | none =>
    match matchUniqueFailed msg with
    | some cap => (jsSplit cap ", ").map (fun columnWithTable => (jsSplit columnWithTable ".").get? 1)
    | none => []

/-- The classified error produced by `formatError`.  Each constructor
wraps the original engine error as its cause.  The validation-error
items and the custom index message built for a unique violation depend
on model state outside this repository slice (an external collaborator,
spec §1) and are not part of the classification modelled here. -/
inductive ClassifiedError where
  | foreignKeyConstraint (cause : EngineError)
  | uniqueConstraint (fields : List (Option String)) (cause : EngineError)
  | timeout (cause : EngineError)
  | database (cause : EngineError)
deriving Repr, DecidableEq

/-- The five codes of the constraint family handled by the first group
of `case` labels in `formatError` (query.js:299-303). -/
def constraintCodes : List String :=
  ["SQLITE_CONSTRAINT_UNIQUE", "SQLITE_CONSTRAINT_PRIMARYKEY",
   "SQLITE_CONSTRAINT_TRIGGER", "SQLITE_CONSTRAINT_FOREIGNKEY",
   "SQLITE_CONSTRAINT"]

/-- `formatError` (query.js:297-358): constraint-family codes become a
foreign-key violation when the message says so and a unique violation
with extracted fields otherwise; `SQLITE_BUSY` becomes a timeout; every
other error becomes a generic database error wrapping the original. -/
def formatError (err : EngineError) : ClassifiedError :=
  if err.code ∈ constraintCodes then
    if containsSub err.message "FOREIGN KEY constraint failed" then
      .foreignKeyConstraint err
    else
      .uniqueConstraint (extractUniqueFields err.message) err
  else if err.code = "SQLITE_BUSY" then
    .timeout err
  else
    .database err

/-! ### Query context, result shaper and execution-mode selector -/

/-- A raw engine row: a JavaScript object mapping column names to
values, in insertion order. -/
abbrev Row : Type := List (String × JSVal)

/-- Read one column of a row; a missing column reads as `undefined`. -/
def rowGet (r : Row) (k : String) : JSVal :=
  getOwn r k

/-- One column of the model definition: its attribute name and data
type (`modelDefinition.columns.get(name)` of the core framework). -/
structure ColumnAttr where
  attributeName : String
  dataType : String
deriving Repr, DecidableEq

/-- One recorded call to `instance.set(name, value, options)`, keeping
the flags of query.js:75-78. -/
structure SetCall where
  key : String
  value : JSVal
  raw : Bool
  comesFromDatabase : Bool
deriving Repr, DecidableEq

/-- A model instance: its attribute values and the ordered record of
`set` calls applied to it. -/
structure ModelInstance where
  dataValues : List (String × JSVal)
  sets : List SetCall
deriving Repr, DecidableEq

/-- The statement metadata of an engine response (`lastID`/`changes`). -/
structure StmtMeta where
  lastID : Int
  changes : Int
deriving Repr, DecidableEq

/-- The per-request state `_handleQueryResponse` consults: the query
classification flags (`isInsertQuery()` and friends of the abstract
base), the SQL text, the `returning`/`plain` options, the optional
target instance, and the model column map. -/
structure QueryCtx where
  isInsert : Bool
  isUpdate : Bool
  isUpsert : Bool
  isBulkUpdate : Bool
  isDelete : Bool
  isShowConstraints : Bool
  isSelect : Bool
  isShowOrDescribe : Bool
  isRaw : Bool
  sql : String
  returning : Bool
  plain : Bool
  inst : Option ModelInstance
  columns : List (String × ColumnAttr)

/-- The first component of the mutation result pair (query.js:88):
`this.instance || (results && ((this.options.plain && results[0]) || results)) || undefined`. -/
inductive MutationFst where
  | inst (i : ModelInstance)
  | row (r : Row)
  | rowList (rs : List Row)
deriving Repr, DecidableEq

/-- A shaped column description of the `PRAGMA TABLE_INFO` branch
(query.js:137-142). -/
structure ColInfo where
  type : JSVal
  allowNull : Bool
  defaultValue : JSVal
  primaryKey : Bool
deriving Repr, DecidableEq

/-- The caller-facing value of `_handleQueryResponse`, one constructor
per return shape.  `selectDelegate` marks delegation to the generic
`handleSelectQuery` row-materialization path and `showIndexesDelegate`
delegation to `handleShowIndexesQuery`, both external to this branch. -/
inductive ShapedResult where
  | upsertPair (inst : Option ModelInstance)
  | mutationPair (fst : MutationFst) (snd : Int)
  | selectDelegate (rs : List Row)
  | countResult (n : Int)
  | rowsResult (rs : List Row)
  | showIndexesDelegate (rs : List Row)
  | tableInfoResult (cols : List (String × ColInfo))
  | rawPair (rs : List Row) (meta : StmtMeta)
  | instResult (inst : Option ModelInstance)
deriving Repr, DecidableEq

/-- The error the shaper can raise (`throw new EmptyResultError()`). -/
inductive ShapeError where
  | emptyResult
deriving Repr, DecidableEq

/-- The column-application loop of query.js:67-79: each key of the
first returned row is parsed through `_parseDatabaseValue` (abstracted
as the `parse` argument, value and optional column type in) and set on
the instance under the mapped attribute name with `raw` and
`comesFromDatabase` flags. -/
def applyRowToInstance (columns : List (String × ColumnAttr))
    (parse : JSVal → Option String → JSVal) (i : ModelInstance) (r : Row) :
    ModelInstance :=
  r.foldl
    (fun inst kv =>
      let attr0 := (columns.find? (fun p => p.1 == kv.1)).map (·.2)
      let updatedValue := parse kv.2 (attr0.map (·.dataType))
      let name := (attr0.map (·.attributeName)).getD kv.1
      { dataValues := objSet inst.dataValues name updatedValue,
        sets := inst.sets ++
          [{ key := name, value := updatedValue, raw := true, comesFromDatabase := true }] })
    i

/-- The `SetCall` recorded for one returned column, matching one step of
`applyRowToInstance`. -/
def setCallFor (columns : List (String × ColumnAttr))
    (parse : JSVal → Option String → JSVal) (kv : String × JSVal) : SetCall :=
  let attr0 := (columns.find? (fun p => p.1 == kv.1)).map (·.2)
  { key := (attr0.map (·.attributeName)).getD kv.1,
    value := parse kv.2 (attr0.map (·.dataType)),
    raw := true, comesFromDatabase := true }

/-- The `PRAGMA TABLE_INFO` shaping loop of query.js:121-156, one row:
a `null` raw default becomes `undefined`, the literal text `NULL`
becomes `null`, otherwise the raw value is kept; a `TINYINT(1)` column
then maps its default through the object literal `{0: false, 1: true}`
(JavaScript key coercion, any other key yielding `undefined`); finally a
string-typed default has every single-quote character removed
(`replaceAll`). -/
def shapeTableInfoRow (r : Row) : ColInfo :=
  let dflt := rowGet r "dflt_value"
  let defaultValue0 : JSVal :=
    if dflt = .null then .undefined
    else if dflt = .str "NULL" then .null
    else dflt
  let col0 : ColInfo :=
    { type := rowGet r "type",
      allowNull := rowGet r "notnull" = .num 0,
      defaultValue := defaultValue0,
      primaryKey := rowGet r "pk" ≠ .num 0 }
  let col1 : ColInfo :=
    if col0.type = .str "TINYINT(1)" then
      { col0 with defaultValue :=
          if jsKeyStr col0.defaultValue = "0" then .bool false
          else if jsKeyStr col0.defaultValue = "1" then .bool true
          else .undefined }
    else col0
  match col1.defaultValue with
  | .str s => { col1 with defaultValue := .str (String.mk (s.toList.filter (fun c => c ≠ squote))) }
  | _ => col1

/-- The whole `PRAGMA TABLE_INFO` branch: an object keyed by column
name, built row by row. -/
def shapeTableInfo (results : List Row) : List (String × ColInfo) :=
  results.foldl
    (fun acc r => objSet acc (jsKeyStr (rowGet r "name")) (shapeTableInfoRow r))
    []

/-- `_handleQueryResponse` (query.js:57-163), with `_parseDatabaseValue`
abstracted as `parse`.  The dispatch order and each branch mirror the
source: insert/update/upsert with instance population and the
empty-result throw, bulk update, delete, show-constraints, select,
show-or-describe, the three `PRAGMA` text tests, raw, and the fallback
returning the instance. -/
def handleQueryResponse (q : QueryCtx) (parse : JSVal → Option String → JSVal)
    (metaData : StmtMeta) (results : List Row) :
    Except ShapeError ShapedResult :=
  if q.isInsert || q.isUpdate || q.isUpsert then
    if (q.isInsert && !q.isUpsert && results.length == 0) && q.inst.isSome then
      .error .emptyResult
    else
      let inst1 : Option ModelInstance :=
        match q.inst, results with
        | some i, r :: _ => some (applyRowToInstance q.columns parse i r)
        | some i, [] => some i
        | none, _ => none
      if q.isUpsert then .ok (.upsertPair inst1)
      else
        let fst : MutationFst :=
          match inst1 with
          | some i => .inst i
          | none =>
            match results with
            | r :: _ => if q.plain then .row r else .rowList results
            | [] => .rowList []
        .ok (.mutationPair fst (if q.returning then results.length else metaData.changes))
  else if q.isBulkUpdate then
    .ok (if q.returning then .selectDelegate results else .countResult metaData.changes)
  else if q.isDelete then
    .ok (.countResult metaData.changes)
  else if q.isShowConstraints then
    .ok (.rowsResult results)
  else if q.isSelect then
    .ok (.selectDelegate results)
  else if q.isShowOrDescribe then
    .ok (.rowsResult results)
  else if containsSub q.sql "PRAGMA INDEX_LIST" then
    .ok (.showIndexesDelegate results)
  else if containsSub q.sql "PRAGMA INDEX_INFO" then
    .ok (.rowsResult results)
  else if containsSub q.sql "PRAGMA TABLE_INFO" then
    .ok (.tableInfoResult (shapeTableInfo results))
  else if q.isRaw then
    .ok (.rawPair results metaData)
  else
    .ok (.instResult q.inst)

/-- The two low-level execution modes (`stmt.all` vs `stmt.run`). -/
inductive DbMethod where
  | all
  | run
deriving Repr, DecidableEq

/-- `s.toLowerCase()` restricted to the ASCII range the compared SQL
keywords live in, written over the character list so that it evaluates
inside the kernel. -/
def jsToLower (s : String) : String :=
  String.mk (s.toList.map Char.toLower)

/-- `getDatabaseMethod` (query.js:382-400): bulk-update, insert, update
and upsert pick `all` exactly when `returning` was requested and `run`
otherwise; delete, or any SQL whose lowercased text contains
`create temporary table` (the lowercasing of the source literal
`CREATE TEMPORARY TABLE`), picks `run`; everything else picks `all`. -/
def getDatabaseMethod (q : QueryCtx) : DbMethod :=
  if q.isBulkUpdate || q.isInsert || q.isUpdate || q.isUpsert then
    if q.returning then .all else .run
  else if q.isDelete || containsSub (jsToLower q.sql) "create temporary table" then
    .run
  else
    .all

/-! ### Show-indexes shaping (`handleShowIndexesQuery`, query.js:360-380) -/

/-- One raw row of `PRAGMA INDEX_LIST`: the adapter reads its `name` and
`unique` properties. -/
structure IndexRow where
  name : String
  unique : JSVal
deriving Repr, DecidableEq

/-- One raw row of the follow-up `PRAGMA INDEX_INFO` call: the column
sequence number within the index and the column name. -/
structure ColumnRow where
  seqno : Nat
  colName : String
deriving Repr, DecidableEq

/-- One entry of the ordered field list attached to a shaped index
(query.js:370-374; its `length` and `order` members are the constant
`undefined` and are omitted). -/
structure IndexField where
  attrName : String
deriving Repr, DecidableEq

/-- A shaped index definition: the mutated `item` after query.js:364-375. -/
structure ShapedIndex where
  name : String
  unique : Bool
  primary : Bool
  constraintName : String
  fields : List (Option IndexField)
deriving Repr, DecidableEq

/-- JavaScript array index assignment `arr[i] = v` on a possibly shorter
array: intermediate holes read as `undefined`, modelled as `none`. -/
def assignAt {α : Type} : List (Option α) → Nat → α → List (Option α)
  | [], 0, v => [some v]
  | [], n + 1, v => none :: assignAt [] n v
  | _ :: rest, 0, v => some v :: rest
  | x :: rest, n + 1, v => x :: assignAt rest n v

/-- Shape one index item (the async mapper of query.js:363-377):
`fields` starts empty and receives one entry per `INDEX_INFO` row at
position `seqno`; `primary` is set to `false`; `unique` is normalized
with `Boolean(...)`; `constraintName` is set to the index name.  The
follow-up `PRAGMA INDEX_INFO` call is abstracted as the `indexInfo`
oracle from index name to returned rows. -/
def shapeIndex (indexInfo : String → List ColumnRow) (item : IndexRow) :
    ShapedIndex :=
  { name := item.name,
    unique := jsTruthy item.unique,
    primary := false,
    constraintName := item.name,
    fields :=
      (indexInfo item.name).foldl
        (fun fs column => assignAt fs column.seqno { attrName := column.colName })
        [] }

/-- `handleShowIndexesQuery` (query.js:360-380): the engine-returned
sequence is reversed back to declaration order and each item is shaped. -/
def handleShowIndexesQuery (indexInfo : String → List ColumnRow)
    (data : List IndexRow) : List ShapedIndex :=
  data.reverse.map (shapeIndex indexInfo)

/-! ### Statement runner (`#allSeries` / `#runSeries`, query.js:211-262) -/

/-- The parameter shapes reaching the series runners: a positional
array, a named-map object, or nothing. -/
inductive BindParams where
  | positional (l : List JSVal)
  | named (m : List (String × JSVal))
  | empty
deriving Repr

/-- Observable statement-lifecycle effects of one series execution. -/
inductive StmtEffect where
  | prepareStmt (sql : String)
  | closeStmt
deriving Repr, DecidableEq

/-- The result object of `stmt.run`. -/
structure RunResult where
  lastInsertRowid : Int
  changes : Int
deriving Repr, DecidableEq

/-- An engine response as built by the series runners. -/
structure EngineResponse where
  statement : StmtMeta
  results : List Row

/-- The positional argument list a series runner spreads into the
engine call (query.js:217-224): a positional array as is, a named map
through `_convertNamedParamsToPositional`, otherwise no arguments. -/
def resolveArgs (query : String) : BindParams → List JSVal
  | .positional l => l
  | .named m => convertNamedParamsToPositional query m
  | .empty => []

/-- `#allSeries` (query.js:211-236): prepare, execute `stmt.all` with
the resolved arguments, and close the statement in a `finally`.  The
engine behaviour of `stmt.all` is the `engineAll` argument, mapping the
bound arguments to rows or to a raised engine error; the returned trace
records the prepare and close effects on every path. -/
def allSeries (query : String) (params : BindParams)
    (engineAll : List JSVal → Except EngineError (List Row)) :
    Except EngineError EngineResponse × List StmtEffect :=
  let args := resolveArgs query params
  match engineAll args with
  | .ok rows =>
    (.ok { statement := { lastID := 0, changes := 0 }, results := rows },
     [.prepareStmt query, .closeStmt])
  | .error e => (.error e, [.prepareStmt query, .closeStmt])

/-- `#runSeries` (query.js:238-262): prepare, execute `stmt.run` with
the resolved arguments, and close the statement in a `finally`.  The
engine behaviour of `stmt.run` is the `engineRun` argument. -/
def runSeries (query : String) (params : BindParams)
    (engineRun : List JSVal → Except EngineError RunResult) :
    Except EngineError EngineResponse × List StmtEffect :=
  let args := resolveArgs query params
  match engineRun args with
  | .ok result =>
    (.ok { statement := { lastID := result.lastInsertRowid, changes := result.changes },
           results := [] },
     [.prepareStmt query, .closeStmt])
  | .error e => (.error e, [.prepareStmt query, .closeStmt])

/-! ### Connection guard (`connect`, connection-manager.ts:156-274) -/

/-- A JavaScript number that may be `Infinity`, as used by the pool
configuration fields. -/
inductive JsNum where
  | fin (n : Int)
  | inf
deriving Repr, DecidableEq

/-- The write-pool configuration the guard inspects
(connection-manager.ts:197-212). -/
structure WritePoolCfg where
  idleTimeoutMillis : JsNum
  maxUsesPerResource : JsNum
  maxSize : JsNum
deriving Repr, DecidableEq

/-- The sequelize pool: its write-pool configuration and whether a read
pool (read-replica routing) is configured. -/
structure PoolCfg where
  write : WritePoolCfg
  readPool : Bool
deriving Repr, DecidableEq

/-- The connection options `connect` consumes. -/
structure ConnectOptions where
  url : Option String
  authToken : Option String
  storage : Option String
  password : Option String
  enableWal : Option Bool
deriving Repr, DecidableEq

/-- The dialect options `connect` consumes. -/
structure DialectOptions where
  foreignKeys : Option Bool
deriving Repr, DecidableEq

/-- The errors `connect` can raise.  The four `temp*` constructors are
the configuration-guard failures for non-durable storage
(connection-manager.ts:199-217); `authTokenRequired` is the remote
precondition failure. -/
inductive ConnectErr where
  | authTokenRequired
  | tempIdleTimeout
  | tempMaxUses
  | tempMaxSize
  | tempReadReplication
deriving Repr, DecidableEq

/-- Whether a `ConnectErr` is one of the non-durable-storage
configuration-guard failures. -/
def ConnectErr.isTempGuard : ConnectErr → Bool
  | .tempIdleTimeout => true
  | .tempMaxUses => true
  | .tempMaxSize => true
  | .tempReadReplication => true
  | .authTokenRequired => false

/-- Observable effects of `connect`: engine connection attempts,
directory creation and out-of-band `exec` statements. -/
inductive ConnEffect where
  | engineConnectRemote (url : String)
  | engineConnect (storage : String)
  | mkdir (dir : String)
  | execSql (sql : String)
deriving Repr, DecidableEq

/-- `path.join(cwd, name)` restricted to the single use in `connect`
(joining a directory and a file name). -/
def pathJoin (dir name : String) : String :=
  dir ++ "/" ++ name

/-- A simplified POSIX `path.dirname`, sufficient for the storage paths
of this model (only consulted on the durable-storage path). -/
def pathDirname (p : String) : String :=
  let parts := jsSplit p "/"
  if parts.length ≤ 1 then "." else String.intercalate "/" parts.dropLast

/-- `connect` (connection-manager.ts:156-274) with the engine assumed to
succeed, returning the connection outcome and the trace of effects.  A
remote url requires an auth token and connects remotely; otherwise the
storage target is resolved (defaulting to `sequelize.turso` under the
working directory), the non-durable guard runs before anything else,
the storage directory is created when missing, the engine is connected,
and the `PRAGMA KEY` / `PRAGMA foreign_keys` / WAL setup statements are
issued. -/
def connect (dialectOpts : DialectOptions) (pool : PoolCfg) (cwd : String)
    (fileExists : String → Bool) (escape : String → String)
    (options : ConnectOptions) : Except ConnectErr Unit × List ConnEffect :=
  if options.url.isSome then
    if options.authToken.isNone then (.error .authTokenRequired, [])
    else (.ok (), [.engineConnectRemote (options.url.getD "")])
  else
    let storage := options.storage.getD (pathJoin cwd "sequelize.turso")
    let inMemory := storage = ":memory:"
    let isTemporaryStorage := inMemory || storage = ""
    if isTemporaryStorage && pool.write.idleTimeoutMillis ≠ .inf then
      (.error .tempIdleTimeout, [])
    else if isTemporaryStorage && pool.write.maxUsesPerResource ≠ .inf then
      (.error .tempMaxUses, [])
    else if isTemporaryStorage && pool.write.maxSize ≠ .fin 1 then
      (.error .tempMaxSize, [])
    else if isTemporaryStorage && pool.readPool then
      (.error .tempReadReplication, [])
    else
      let storageDir := pathDirname storage
      let mkdirFx : List ConnEffect :=
        if !isTemporaryStorage && !fileExists storageDir then [.mkdir storageDir] else []
      let keyFx : List ConnEffect :=
        match options.password with
        | some pw => [.execSql ("PRAGMA KEY=" ++ escape pw)]
        | none => []
      let fkFx : List ConnEffect :=
        if dialectOpts.foreignKeys ≠ some false then [.execSql "PRAGMA foreign_keys = ON"] else []
      let walFx : List ConnEffect :=
        if options.enableWal ≠ some false then [.execSql "PRAGMA journal_mode = WAL"] else []
      (.ok (), mkdirFx ++ [.engineConnect storage] ++ keyFx ++ fkFx ++ walFx)

/-! ### Disconnect / validate (connection-manager.ts:276-292) -/

/-- The closed-flag state of one connection (the `CLOSED_SYMBOL`
property). -/
structure ConnState where
  closed : Bool
deriving Repr, DecidableEq

/-- `validate` (connection-manager.ts:276-278): a connection is valid
exactly when its closed-flag is not set. -/
def validate (c : ConnState) : Bool :=
  !c.closed

/-- The observable engine effect of `disconnect`. -/
inductive DiscEffect where
  | engineClose
deriving Repr, DecidableEq

/-- `disconnect` (connection-manager.ts:280-292): return immediately
when the closed-flag is already set; otherwise call the engine close
(behaviour given by `engineClose`), set the flag only on success, and
propagate the error with the flag unchanged on failure.  Returns the
post-state, the outcome and the engine-call trace. -/
def disconnect (c : ConnState) (engineClose : Except EngineError Unit) :
    ConnState × Except EngineError Unit × List DiscEffect :=
  if c.closed then (c, .ok (), [])
  else
    match engineClose with
    | .ok () => ({ closed := true }, .ok (), [.engineClose])
    | .error e => (c, .error e, [.engineClose])

end Turso


/-! ## Theorems -/

namespace Turso

/-- The fold of `convertStep` agrees with the specification-worded
recursion `resolveNamesSpec` from any intermediate used-keys set. -/
theorem convert_foldl_eq_spec (m : List (String × JSVal)) (names : List String) :
    ∀ used acc, (names.foldl (convertStep m) (used, acc)).2
      = acc ++ resolveNamesSpec m used names := by
  induction names with
  | nil => intro used acc; simp [resolveNamesSpec]
  | cons n ns ih =>
    intro used acc
    simp only [List.foldl_cons]
    by_cases h1 : hasOwn m ("$" ++ n)
    · have hstep : convertStep m (used, acc) n
          = (used ++ ["$" ++ n], acc ++ [getOwn m ("$" ++ n)]) := by
        simp [convertStep, h1]
      rw [hstep, ih]
      simp [resolveNamesSpec, h1]
    · by_cases h2 : hasOwn m n
      · have hstep : convertStep m (used, acc) n
            = (used ++ [n], acc ++ [getOwn m n]) := by
          simp [convertStep, h1, h2]
        rw [hstep, ih]
        simp [resolveNamesSpec, h1, h2]
      · cases h3 : (m.map (·.1)).find? (fun k => !used.contains k) with
        | some k =>
          have hstep : convertStep m (used, acc) n
              = (used ++ [k], acc ++ [getOwn m k]) := by
            simp only [convertStep]
            rw [if_neg h1, if_neg h2, h3]
          have hspec : resolveNamesSpec m used (n :: ns)
              = getOwn m k :: resolveNamesSpec m (used ++ [k]) ns := by
            simp only [resolveNamesSpec]
            rw [if_neg h1, if_neg h2, h3]
          rw [hstep, ih, hspec]
          simp
        | none =>
          have hstep : convertStep m (used, acc) n
              = (used, acc ++ [JSVal.null]) := by
            simp only [convertStep]
            rw [if_neg h1, if_neg h2, h3]
          have hspec : resolveNamesSpec m used (n :: ns)
              = JSVal.null :: resolveNamesSpec m used ns := by
            simp only [resolveNamesSpec]
            rw [if_neg h1, if_neg h2, h3]
          rw [hstep, ih, hspec]
          simp

/-- The specification-worded resolution yields one bound value per
referenced placeholder name. -/
theorem resolveNamesSpec_length (m : List (String × JSVal)) :
    ∀ (names : List String) (used : List String),
      (resolveNamesSpec m used names).length = names.length := by
  intro names
  induction names with
  | nil => intro used; simp [resolveNamesSpec]
  | cons n ns ih =>
    intro used
    simp only [resolveNamesSpec]
    split
    · simp [ih]
    · split
      · simp [ih]
      · split <;> simp [ih]

/-- C1: the named-to-positional binder scans the SQL left-to-right for
`$name` placeholders (duplicates kept in position, via
`extractParamNames`) and resolves each referenced name exactly by the
specification strategy: (1) the sigil-prefixed key, (2) the bare key,
(3) the first mapping key not yet consumed by an earlier placeholder
tracked by a used-keys set, (4) null; one bound value per placeholder,
and a SQL text with no placeholders yields the empty argument list. -/
theorem named_binder_resolution_C1 (query : String) (m : List (String × JSVal)) :
    convertNamedParamsToPositional query m
      = resolveNamesSpec m [] (extractParamNames query) ∧
    (convertNamedParamsToPositional query m).length
      = (extractParamNames query).length ∧
    (extractParamNames query = [] → convertNamedParamsToPositional query m = []) := by
  have hmain : convertNamedParamsToPositional query m
      = resolveNamesSpec m [] (extractParamNames query) := by
    unfold convertNamedParamsToPositional
    rw [convert_foldl_eq_spec]
    simp
  refine ⟨hmain, ?_, ?_⟩
  · rw [hmain, resolveNamesSpec_length]
  · intro h
    rw [hmain, h]
    simp [resolveNamesSpec]

/-- Witness for C1 at a concrete SQL text and mapping, discharging the
no-placeholder hypothesis. -/
theorem named_binder_resolution_C1_witness :
    convertNamedParamsToPositional "SELECT 1 + 2"
      [("$a", JSVal.num 1), ("extra", JSVal.str "e")] = [] :=
  (named_binder_resolution_C1 "SELECT 1 + 2"
    [("$a", JSVal.num 1), ("extra", JSVal.str "e")]).2.2 (by decide)

/-- C6: the positional binder is an element-for-element, order-keeping
pass-through except that bigints become their lossless decimal strings;
in particular binding the list holding 1 and the bigint 2^63 - 1 yields
1 and the string 9223372036854775807. -/
theorem positional_binder_C6 :
    (∀ (ps : List JSVal) (i : Nat),
      (bindPositional ps)[i]? = (ps[i]?).map stringifyIfBigint) ∧
    (∀ ps : List JSVal, (bindPositional ps).length = ps.length) ∧
    (∀ v : JSVal, (∀ n : Int, v ≠ .bigint n) → stringifyIfBigint v = v) ∧
    (∀ n : Int, stringifyIfBigint (.bigint n) = .str (toString n)) ∧
    bindPositional [.num 1, .bigint 9223372036854775807]
      = [.num 1, .str "9223372036854775807"] := by
  refine ⟨?_, ?_, ?_, ?_, ?_⟩
  · intro ps i
    simp [bindPositional]
  · intro ps
    simp [bindPositional]
  · intro v h
    cases v with
    | bigint n => exact absurd rfl (h n)
    | null => rfl
    | undefined => rfl
    | bool b => rfl
    | num n => rfl
    | str s => rfl
  · intro n
    rfl
  · decide

/-- Witness for C6 at a concrete non-bigint value, discharging the
not-a-bigint hypothesis. -/
theorem positional_binder_C6_witness :
    stringifyIfBigint (.str "x") = .str "x" :=
  positional_binder_C6.2.2.1 (.str "x") (fun _ h => JSVal.noConfusion h)

/-- C9: in both execution modes the prepared statement acquired for the
call is closed on every exit path — the effect trace is always exactly
the prepare followed by the close, whether the engine returns rows, a
run result, or raises. -/
theorem statement_close_C9 (query : String) (params : BindParams)
    (engineAll : List JSVal → Except EngineError (List Row))
    (engineRun : List JSVal → Except EngineError RunResult) :
    (allSeries query params engineAll).2
      = [.prepareStmt query, .closeStmt] ∧
    (runSeries query params engineRun).2
      = [.prepareStmt query, .closeStmt] ∧
    StmtEffect.closeStmt ∈ (allSeries query params engineAll).2 ∧
    StmtEffect.closeStmt ∈ (runSeries query params engineRun).2 := by
  have h1 : (allSeries query params engineAll).2
      = [.prepareStmt query, .closeStmt] := by
    simp only [allSeries]
    cases h : engineAll (resolveArgs query params) <;> simp [h]
  have h2 : (runSeries query params engineRun).2
      = [.prepareStmt query, .closeStmt] := by
    simp only [runSeries]
    cases h : engineRun (resolveArgs query params) <;> simp [h]
  refine ⟨h1, h2, ?_, ?_⟩
  · rw [h1]; simp
  · rw [h2]; simp

/-- C10: disconnect is idempotent over the closed-flag and the flag is
set exactly on engine-close success: an already-closed connection
returns at once with no engine close call; a successful close sets the
flag so `validate` reports false; a failing close propagates the engine
error and leaves the flag unset. -/
theorem disconnect_idempotent_C10 (c : ConnState) (eng : Except EngineError Unit) :
    (c.closed = true →
      disconnect c eng = (c, .ok (), []) ∧
      DiscEffect.engineClose ∉ (disconnect c eng).2.2) ∧
    (c.closed = false → eng = .ok () →
      (disconnect c eng).1 = { closed := true } ∧
      (disconnect c eng).2.1 = .ok () ∧
      validate (disconnect c eng).1 = false) ∧
    (∀ e : EngineError, c.closed = false → eng = .error e →
      (disconnect c eng).2.1 = .error e ∧
      (disconnect c eng).1 = c ∧
      (disconnect c eng).1.closed = false ∧
      validate (disconnect c eng).1 = validate c) := by
  refine ⟨?_, ?_, ?_⟩
  · intro h
    constructor
    · simp [disconnect, h]
    · simp [disconnect, h]
  · intro h he
    subst he
    refine ⟨?_, ?_, ?_⟩ <;> simp [disconnect, h, validate]
  · intro e h he
    subst he
    refine ⟨?_, ?_, ?_, ?_⟩ <;> simp [disconnect, h, validate]

/-- Witness for C10 at concrete states, discharging the closed-flag and
engine-outcome hypotheses on all three clauses. -/
theorem disconnect_idempotent_C10_witness :
    (disconnect ⟨true⟩ (.ok ()) = (⟨true⟩, .ok (), []) ∧
      DiscEffect.engineClose ∉ (disconnect ⟨true⟩ (.ok ())).2.2) ∧
    ((disconnect ⟨false⟩ (.ok ())).1 = { closed := true } ∧
      (disconnect ⟨false⟩ (.ok ())).2.1 = .ok () ∧
      validate (disconnect ⟨false⟩ (.ok ())).1 = false) ∧
    ((disconnect ⟨false⟩ (.error ⟨"c", "m"⟩)).2.1 = .error ⟨"c", "m"⟩ ∧
      (disconnect ⟨false⟩ (.error ⟨"c", "m"⟩)).1 = ⟨false⟩ ∧
      (disconnect ⟨false⟩ (.error ⟨"c", "m"⟩)).1.closed = false ∧
      validate (disconnect ⟨false⟩ (.error ⟨"c", "m"⟩)).1 = validate ⟨false⟩) :=
  ⟨(disconnect_idempotent_C10 ⟨true⟩ (.ok ())).1 rfl,
   (disconnect_idempotent_C10 ⟨false⟩ (.ok ())).2.1 rfl rfl,
   (disconnect_idempotent_C10 ⟨false⟩ (.error ⟨"c", "m"⟩)).2.2 ⟨"c", "m"⟩ rfl rfl⟩


/-- C2: the error classifier maps every raw engine error to exactly one
classified error: constraint-family codes yield a foreign-key violation
when the message contains the foreign-key text and otherwise a unique
violation with fields extracted by the two message patterns (the
scenario message yields the fields email and username); SQLITE_BUSY
yields the busy timeout; every other code yields the generic database
error wrapping the original. -/
theorem error_classifier_C2 (err : EngineError) :
    (err.code ∈ constraintCodes →
      (containsSub err.message "FOREIGN KEY constraint failed" = true →
        formatError err = .foreignKeyConstraint err) ∧
      (containsSub err.message "FOREIGN KEY constraint failed" = false →
        formatError err = .uniqueConstraint (extractUniqueFields err.message) err)) ∧
    (err.code = "SQLITE_BUSY" → formatError err = .timeout err) ∧
    (err.code ∉ constraintCodes → err.code ≠ "SQLITE_BUSY" →
      formatError err = .database err) ∧
    formatError ⟨"SQLITE_CONSTRAINT_UNIQUE",
        "UNIQUE constraint failed: users.email, users.username"⟩
      = .uniqueConstraint [some "email", some "username"]
          ⟨"SQLITE_CONSTRAINT_UNIQUE",
           "UNIQUE constraint failed: users.email, users.username"⟩ := by
  refine ⟨?_, ?_, ?_, ?_⟩
  · intro hc
    constructor
    · intro hf
      simp [formatError, hc, hf]
    · intro hf
      simp [formatError, hc, hf]
  · intro hb
    simp [formatError, hb, constraintCodes]
  · intro hc hb
    simp [formatError, hc, hb]
  · decide

/-- Witness for C2 at concrete errors, discharging the code-membership
and message hypotheses of each clause. -/
theorem error_classifier_C2_witness :
    formatError ⟨"SQLITE_CONSTRAINT_FOREIGNKEY", "FOREIGN KEY constraint failed"⟩
      = .foreignKeyConstraint ⟨"SQLITE_CONSTRAINT_FOREIGNKEY", "FOREIGN KEY constraint failed"⟩ ∧
    formatError ⟨"SQLITE_BUSY", "database is locked"⟩
      = .timeout ⟨"SQLITE_BUSY", "database is locked"⟩ ∧
    formatError ⟨"SQLITE_ERROR", "syntax error"⟩
      = .database ⟨"SQLITE_ERROR", "syntax error"⟩ :=
  ⟨((error_classifier_C2 ⟨"SQLITE_CONSTRAINT_FOREIGNKEY", "FOREIGN KEY constraint failed"⟩).1
      (by decide)).1 (by decide),
   (error_classifier_C2 ⟨"SQLITE_BUSY", "database is locked"⟩).2.1 rfl,
   (error_classifier_C2 ⟨"SQLITE_ERROR", "syntax error"⟩).2.2.1 (by decide) (by decide)⟩

/-- A raw-classified request whose SQL text contains the temporary-table
marker, used to refute the unconditional rowset-mode clause of C4. -/
def rawTempTableCtx : QueryCtx :=
  { isInsert := false, isUpdate := false, isUpsert := false,
    isBulkUpdate := false, isDelete := false, isShowConstraints := false,
    isSelect := false, isShowOrDescribe := false, isRaw := true,
    sql := "CREATE TEMPORARY TABLE tmp (x INTEGER)",
    returning := false, plain := false, inst := none, columns := [] }

/-- Counterexample to C4 as stated: a Raw-classified request whose SQL
text contains `CREATE TEMPORARY TABLE` selects rowcount mode
(`stmt.run`), not the rowset mode the claim asserts for every Raw
classification. -/
theorem database_method_C4_counterexample :
    rawTempTableCtx.isRaw = true ∧
    getDatabaseMethod rawTempTableCtx = .run ∧
    DbMethod.run ≠ DbMethod.all := by
  refine ⟨rfl, by decide, by decide⟩

/-- C4 (amended): Insert, Update, Upsert and BulkUpdate classifications
select rowset mode exactly when row-returning mutation output was
requested; Delete always selects rowcount mode; all remaining
classifications (Select, ShowOrDescribe, ShowConstraints, Raw) select
rowset mode unless the lowercased SQL text contains
`create temporary table`, in which case they select rowcount mode. -/
theorem database_method_C4 (q : QueryCtx) :
    ((q.isBulkUpdate || q.isInsert || q.isUpdate || q.isUpsert) = true →
      (getDatabaseMethod q = .all ↔ q.returning = true)) ∧
    ((q.isBulkUpdate || q.isInsert || q.isUpdate || q.isUpsert) = false →
      q.isDelete = true → getDatabaseMethod q = .run) ∧
    ((q.isBulkUpdate || q.isInsert || q.isUpdate || q.isUpsert) = false →
      q.isDelete = false →
      getDatabaseMethod q =
        (if containsSub (jsToLower q.sql) "create temporary table" = true
         then DbMethod.run else DbMethod.all)) := by
  refine ⟨?_, ?_, ?_⟩
  · intro h
    cases hr : q.returning with
    | true => simp [getDatabaseMethod, h, hr]
    | false => simp [getDatabaseMethod, h, hr]
  · intro h hd
    simp [getDatabaseMethod, h, hd]
  · intro h hd
    simp only [getDatabaseMethod, h, hd]
    split <;> simp_all

/-- A plain insert request with row-returning output requested. -/
def insertReturningCtx : QueryCtx :=
  { isInsert := true, isUpdate := false, isUpsert := false,
    isBulkUpdate := false, isDelete := false, isShowConstraints := false,
    isSelect := false, isShowOrDescribe := false, isRaw := false,
    sql := "INSERT INTO t VALUES (1)",
    returning := true, plain := false, inst := none, columns := [] }

/-- Witness for C4 (amended) at a concrete insert request with
row-returning output requested. -/
theorem database_method_C4_witness :
    getDatabaseMethod insertReturningCtx = .all := by
  have h := (database_method_C4 insertReturningCtx).1 (by decide)
  exact h.mpr rfl

/-- C5: for a non-remote connection attempt against a non-durable
storage target (the in-memory marker or an empty storage path), any
violated retention condition — finite idle timeout, finite
per-connection use limit, write-pool size other than one, or configured
read-replica routing — makes `connect` fail with one of the
configuration-guard errors and an empty effect trace, i.e. before any
engine connect call. -/
theorem connection_guard_C5 (d : DialectOptions) (pool : PoolCfg) (cwd : String)
    (fileExists : String → Bool) (escape : String → String) (o : ConnectOptions)
    (hUrl : o.url = none)
    (hTemp : o.storage = some ":memory:" ∨ o.storage = some "")
    (hViol : pool.write.idleTimeoutMillis ≠ .inf ∨
             pool.write.maxUsesPerResource ≠ .inf ∨
             pool.write.maxSize ≠ .fin 1 ∨
             pool.readPool = true) :
    ∃ e : ConnectErr, (connect d pool cwd fileExists escape o).1 = .error e ∧
      e.isTempGuard = true ∧
      (connect d pool cwd fileExists escape o).2 = [] := by
  have htmp : ∀ s : String, o.storage = some s → s = ":memory:" ∨ s = "" →
      ∃ e : ConnectErr, (connect d pool cwd fileExists escape o).1 = .error e ∧
        e.isTempGuard = true ∧
        (connect d pool cwd fileExists escape o).2 = [] := by
    intro s hs hmem
    have hT : (decide (s = ":memory:") || decide (s = "")) = true := by
      rcases hmem with h | h <;> simp [h]
    by_cases h1 : pool.write.idleTimeoutMillis = JsNum.inf
    · by_cases h2 : pool.write.maxUsesPerResource = JsNum.inf
      · by_cases h3 : pool.write.maxSize = JsNum.fin 1
        · have h4 : pool.readPool = true := by
            rcases hViol with h | h | h | h
            · exact absurd h1 h
            · exact absurd h2 h
            · exact absurd h3 h
            · exact h
          refine ⟨.tempReadReplication, ?_, rfl, ?_⟩ <;>
            simp [connect, hUrl, hs, hT, h1, h2, h3, h4]
        · refine ⟨.tempMaxSize, ?_, rfl, ?_⟩ <;>
            simp [connect, hUrl, hs, hT, h1, h2, h3]
      · refine ⟨.tempMaxUses, ?_, rfl, ?_⟩ <;>
          simp [connect, hUrl, hs, hT, h1, h2]
    · refine ⟨.tempIdleTimeout, ?_, rfl, ?_⟩ <;>
        simp [connect, hUrl, hs, hT, h1]
  rcases hTemp with h | h
  · exact htmp _ h (Or.inl rfl)
  · exact htmp _ h (Or.inr rfl)

/-- Witness for C5: the claim scenario — a write pool of maximum size 5
(idle timeout and use limit infinite, no read pool) against the
in-memory marker — fails with a configuration-guard error and an empty
effect trace. -/
theorem connection_guard_C5_witness :
    ∃ e : ConnectErr,
      (connect ⟨none⟩ ⟨⟨.inf, .inf, .fin 5⟩, false⟩ "/app" (fun _ => true) id
        ⟨none, none, some ":memory:", none, none⟩).1 = .error e ∧
      e.isTempGuard = true ∧
      (connect ⟨none⟩ ⟨⟨.inf, .inf, .fin 5⟩, false⟩ "/app" (fun _ => true) id
        ⟨none, none, some ":memory:", none, none⟩).2 = [] :=
  connection_guard_C5 ⟨none⟩ ⟨⟨.inf, .inf, .fin 5⟩, false⟩ "/app" (fun _ => true) id
    ⟨none, none, some ":memory:", none, none⟩ rfl (Or.inl rfl)
    (Or.inr (Or.inr (Or.inl (by decide))))

/-- A fold whose step appends exactly one recorded `set` call per
element accumulates the mapped calls in order. -/
theorem foldl_sets_append {β : Type} (f : ModelInstance → β → ModelInstance)
    (g : β → SetCall) (hf : ∀ i b, (f i b).sets = i.sets ++ [g b]) :
    ∀ (l : List β) (i : ModelInstance),
      (l.foldl f i).sets = i.sets ++ l.map g := by
  intro l
  induction l with
  | nil => intro i; simp
  | cons b rest ih =>
    intro i
    rw [List.foldl_cons, ih, hf]
    simp

/-- The column-application loop records exactly one `set` call per
returned column of the row, in order. -/
theorem applyRowToInstance_sets (columns : List (String × ColumnAttr))
    (parse : JSVal → Option String → JSVal) (r : Row) (i : ModelInstance) :
    (applyRowToInstance columns parse i r).sets
      = i.sets ++ r.map (setCallFor columns parse) :=
  foldl_sets_append _ (setCallFor columns parse) (fun _ _ => rfl) r i

/-- C3: a plain-insert (not upsert) classification with an attached
target instance raises EmptyResult on an empty engine result; on a
nonempty result it raises nothing, returns the mutation pair holding
the instance populated from the first row, and every `set` applied to
the instance carries the populated-from-storage flag. -/
theorem insert_populate_C3 (q : QueryCtx) (parse : JSVal → Option String → JSVal)
    (metaData : StmtMeta) (i : ModelInstance) (r : Row) (rest : List Row)
    (hIns : q.isInsert = true) (hUp : q.isUpsert = false) (hInst : q.inst = some i) :
    handleQueryResponse q parse metaData [] = .error .emptyResult ∧
    handleQueryResponse q parse metaData (r :: rest)
      = .ok (.mutationPair (.inst (applyRowToInstance q.columns parse i r))
          (if q.returning then ((r :: rest).length : Int) else metaData.changes)) ∧
    (applyRowToInstance q.columns parse i r).sets
      = i.sets ++ r.map (setCallFor q.columns parse) ∧
    ∀ s ∈ r.map (setCallFor q.columns parse),
      s.comesFromDatabase = true ∧ s.raw = true := by
  refine ⟨?_, ?_, applyRowToInstance_sets q.columns parse r i, ?_⟩
  · simp [handleQueryResponse, hIns, hUp, hInst]
  · simp [handleQueryResponse, hIns, hUp, hInst]
  · intro s hs
    rcases List.mem_map.mp hs with ⟨kv, _, rfl⟩
    exact ⟨rfl, rfl⟩

/-- A concrete insert context with an attached empty instance and one
mapped column. -/
def insertPopCtx : QueryCtx :=
  { isInsert := true, isUpdate := false, isUpsert := false,
    isBulkUpdate := false, isDelete := false, isShowConstraints := false,
    isSelect := false, isShowOrDescribe := false, isRaw := false,
    sql := "INSERT INTO t (col) VALUES (1)",
    returning := false, plain := false, inst := some ⟨[], []⟩,
    columns := [("col", ⟨"attr", "TEXT"⟩)] }

/-- Witness for C3 at the concrete insert context, discharging the
classification and instance hypotheses. -/
theorem insert_populate_C3_witness :
    handleQueryResponse insertPopCtx (fun v _ => v) ⟨0, 2⟩ [] = .error .emptyResult ∧
    handleQueryResponse insertPopCtx (fun v _ => v) ⟨0, 2⟩ [[("col", .str "v")]]
      = .ok (.mutationPair
          (.inst (applyRowToInstance insertPopCtx.columns (fun v _ => v) ⟨[], []⟩
            [("col", .str "v")]))
          (if insertPopCtx.returning
           then (([[("col", JSVal.str "v")]] : List Row).length : Int)
           else (2 : Int))) ∧
    (applyRowToInstance insertPopCtx.columns (fun v _ => v) ⟨[], []⟩
        [("col", .str "v")]).sets
      = ([] : List SetCall)
        ++ ([("col", JSVal.str "v")] : Row).map
            (setCallFor insertPopCtx.columns (fun v _ => v)) ∧
    ∀ s ∈ ([("col", JSVal.str "v")] : Row).map
        (setCallFor insertPopCtx.columns (fun v _ => v)),
      s.comesFromDatabase = true ∧ s.raw = true :=
  insert_populate_C3 insertPopCtx (fun v _ => v) ⟨0, 2⟩ ⟨[], []⟩
    [("col", .str "v")] [] rfl rfl rfl

/-- A request reaching the `PRAGMA TABLE_INFO` branch of the shaper. -/
def tableInfoCtx : QueryCtx :=
  { isInsert := false, isUpdate := false, isUpsert := false,
    isBulkUpdate := false, isDelete := false, isShowConstraints := false,
    isSelect := false, isShowOrDescribe := false, isRaw := false,
    sql := "PRAGMA TABLE_INFO(users)",
    returning := false, plain := false, inst := none, columns := [] }

/-- A `TINYINT(1)` column whose schema declares an explicit
`DEFAULT NULL` (raw default text `NULL`). -/
def tinyintNullRow : Row :=
  [("name", .str "b"), ("type", .str "TINYINT(1)"),
   ("dflt_value", .str "NULL"), ("notnull", .num 0), ("pk", .num 0)]

/-- A string column whose default literal contains interior quote
characters (the SQL-escaped text for: it, quote, s). -/
def quotedDefaultRow : Row :=
  [("name", .str "q"), ("type", .str "VARCHAR(255)"),
   ("dflt_value", .str (squoteStr ++ "it" ++ squoteStr ++ squoteStr ++ "s" ++ squoteStr)),
   ("notnull", .num 0), ("pk", .num 0)]

/-- Counterexample to C7 as stated: for a `TINYINT(1)` column with the
literal default text `NULL` the shaper produces `undefined` — the same
value as an absent default, not the distinct explicit-null state the
claim asserts — and for a string default with interior quote characters
it removes every quote character, not only the surrounding ones. -/
theorem table_info_C7_counterexample :
    handleQueryResponse tableInfoCtx (fun v _ => v) ⟨0, 0⟩
        [tinyintNullRow, quotedDefaultRow]
      = .ok (.tableInfoResult
          [("b", ⟨.str "TINYINT(1)", true, .undefined, false⟩),
           ("q", ⟨.str "VARCHAR(255)", true, .str "its", false⟩)]) ∧
    JSVal.undefined ≠ JSVal.null ∧
    "its" ≠ "it" ++ squoteStr ++ squoteStr ++ "s" := by
  refine ⟨by rfl, by decide, by decide⟩

/-- C7 (amended): the table-info shaper maps a null raw default to
undefined; maps the literal text `NULL` to an explicit null default for
columns not of type `TINYINT(1)`; removes every single-quote character
(not only surrounding ones) from string defaults; for a `TINYINT(1)`
column maps a `0`/`1` default to false/true and any other default —
including an explicit `NULL` — to undefined; `allowNull` holds exactly
when `notnull` is 0 and `primaryKey` exactly when `pk` is nonzero; and
the claim scenario row shapes as stated. -/
theorem table_info_C7 (r : Row) :
    (rowGet r "dflt_value" = .null →
      (shapeTableInfoRow r).defaultValue = .undefined) ∧
    (rowGet r "dflt_value" = .str "NULL" →
      rowGet r "type" ≠ .str "TINYINT(1)" →
      (shapeTableInfoRow r).defaultValue = .null) ∧
    (rowGet r "type" = .str "TINYINT(1)" →
      ∀ sv : String, rowGet r "dflt_value" = .str sv →
        sv ≠ "0" → sv ≠ "1" →
        (shapeTableInfoRow r).defaultValue = .undefined) ∧
    (rowGet r "type" = .str "TINYINT(1)" → rowGet r "dflt_value" = .str "0" →
      (shapeTableInfoRow r).defaultValue = .bool false) ∧
    (rowGet r "type" = .str "TINYINT(1)" → rowGet r "dflt_value" = .str "1" →
      (shapeTableInfoRow r).defaultValue = .bool true) ∧
    (∀ sv : String, rowGet r "dflt_value" = .str sv → sv ≠ "NULL" →
      rowGet r "type" ≠ .str "TINYINT(1)" →
      (shapeTableInfoRow r).defaultValue
        = .str (String.mk (sv.toList.filter (fun c => c ≠ squote)))) ∧
    ((shapeTableInfoRow r).allowNull = true ↔ rowGet r "notnull" = .num 0) ∧
    ((shapeTableInfoRow r).primaryKey = true ↔ rowGet r "pk" ≠ .num 0) ∧
    handleQueryResponse tableInfoCtx (fun v _ => v) ⟨0, 0⟩
        [[("name", .str "active"), ("type", .str "TINYINT(1)"),
          ("dflt_value", .str "1"), ("notnull", .num 0), ("pk", .num 0)]]
      = .ok (.tableInfoResult
          [("active", ⟨.str "TINYINT(1)", true, .bool true, false⟩)]) := by
  refine ⟨?_, ?_, ?_, ?_, ?_, ?_, ?_, ?_, by rfl⟩
  · intro h
    by_cases ht : rowGet r "type" = .str "TINYINT(1)" <;>
      simp [shapeTableInfoRow, h, ht, jsKeyStr]
  · intro h ht
    simp [shapeTableInfoRow, h, ht]
  · intro ht sv h h0 h1
    by_cases hnull : sv = "NULL"
    · subst hnull
      simp [shapeTableInfoRow, h, ht, jsKeyStr]
    · simp [shapeTableInfoRow, h, ht, hnull, jsKeyStr, h0, h1]
  · intro ht h
    simp [shapeTableInfoRow, h, ht, jsKeyStr]
  · intro ht h
    simp [shapeTableInfoRow, h, ht, jsKeyStr]
  · intro sv h hnull ht
    simp [shapeTableInfoRow, h, hnull, ht]
  · unfold shapeTableInfoRow
    dsimp only
    split <;> split <;> simp
  · unfold shapeTableInfoRow
    dsimp only
    split <;> split <;> simp

/-- Witness for C7 (amended) at the claim scenario row, discharging the
column-type and default-text hypotheses. -/
theorem table_info_C7_witness :
    (shapeTableInfoRow
        [("name", .str "active"), ("type", .str "TINYINT(1)"),
         ("dflt_value", .str "1"), ("notnull", .num 0), ("pk", .num 0)]).defaultValue
      = .bool true :=
  (table_info_C7
      [("name", .str "active"), ("type", .str "TINYINT(1)"),
       ("dflt_value", .str "1"), ("notnull", .num 0), ("pk", .num 0)]).2.2.2.2.1
    (by decide) (by decide)

/-- Index assignment stores the value at the assigned position. -/
theorem assignAt_get_self {α : Type} (v : α) :
    ∀ (i : Nat) (l : List (Option α)), (assignAt l i v)[i]? = some (some v) := by
  intro i
  induction i with
  | zero => intro l; cases l <;> simp [assignAt]
  | succ n ih =>
    intro l
    cases l with
    | nil => simpa [assignAt] using ih []
    | cons x rest => simpa [assignAt] using ih rest

/-- Index assignment leaves every other already-present position
unchanged. -/
theorem assignAt_get_ne {α : Type} (v : α) :
    ∀ (j : Nat) (l : List (Option α)) (i : Nat) (x : Option α),
      i ≠ j → l[i]? = some x → (assignAt l j v)[i]? = some x := by
  intro j
  induction j with
  | zero =>
    intro l i x hne hget
    cases l with
    | nil => simp at hget
    | cons y rest =>
      cases i with
      | zero => exact absurd rfl hne
      | succ n => simpa [assignAt] using hget
  | succ m ih =>
    intro l i x hne hget
    cases l with
    | nil => simp at hget
    | cons y rest =>
      cases i with
      | zero => simpa [assignAt] using hget
      | succ n =>
        have step := ih rest n x (by omega) (by simpa using hget)
        simpa [assignAt] using step

/-- The field-assignment fold preserves a position no remaining row
assigns to. -/
theorem fields_fold_preserve :
    ∀ (rows : List ColumnRow) (init : List (Option IndexField)) (i : Nat)
      (x : Option IndexField),
      (∀ c ∈ rows, c.seqno ≠ i) → init[i]? = some x →
      (rows.foldl (fun fs column => assignAt fs column.seqno
        { attrName := column.colName }) init)[i]? = some x := by
  intro rows
  induction rows with
  | nil => intro init i x _ h; simpa using h
  | cons c rest ih =>
    intro init i x hne h
    rw [List.foldl_cons]
    refine ih _ i x (fun d hd => hne d (List.mem_cons_of_mem c hd)) ?_
    exact assignAt_get_ne _ c.seqno init i x
      (fun he => hne c (List.mem_cons_self c rest) he.symm) h

/-- When the reported sequence numbers are pairwise distinct, the
field-assignment fold places the entry of each introspection row at its
sequence-number position. -/
theorem fields_fold_ordered :
    ∀ (rows : List ColumnRow) (init : List (Option IndexField)),
      (rows.map ColumnRow.seqno).Nodup →
      ∀ c ∈ rows,
        (rows.foldl (fun fs column => assignAt fs column.seqno
          { attrName := column.colName }) init)[c.seqno]?
          = some (some { attrName := c.colName }) := by
  intro rows
  induction rows with
  | nil => intro init _ c hc; simp at hc
  | cons d rest ih =>
    intro init hnd c hc
    have hnd2 : (d.seqno ∉ rest.map ColumnRow.seqno) ∧
        (rest.map ColumnRow.seqno).Nodup := by
      simpa [List.nodup_cons] using hnd
    rw [List.foldl_cons]
    rcases List.mem_cons.mp hc with rfl | hmem
    · refine fields_fold_preserve rest _ _ _ ?_ (assignAt_get_self _ _ _)
      intro e he heq
      exact hnd2.1 (heq ▸ List.mem_map_of_mem ColumnRow.seqno he)
    · exact ih _ hnd2.2 c hmem

/-- C8: the show-indexes shaper reverses the engine-returned sequence
back to declaration order; each shaped index normalizes the unique flag
with JavaScript truthiness, sets the primary flag to the boolean false,
and uses the index name as constraint name; and the attached field list
is ordered by the reported column sequence numbers of the follow-up
introspection call, whenever those numbers are pairwise distinct. -/
theorem show_indexes_C8 (indexInfo : String → List ColumnRow)
    (data : List IndexRow) :
    (handleShowIndexesQuery indexInfo data).length = data.length ∧
    (∀ k : Nat, k < data.length →
      (handleShowIndexesQuery indexInfo data)[k]?
        = (data[data.length - 1 - k]?).map (shapeIndex indexInfo)) ∧
    (∀ item : IndexRow,
      (shapeIndex indexInfo item).unique = jsTruthy item.unique ∧
      (shapeIndex indexInfo item).primary = false ∧
      (shapeIndex indexInfo item).constraintName = item.name) ∧
    (∀ (item : IndexRow) (c : ColumnRow), c ∈ indexInfo item.name →
      ((indexInfo item.name).map ColumnRow.seqno).Nodup →
      (shapeIndex indexInfo item).fields[c.seqno]?
        = some (some { attrName := c.colName })) := by
  refine ⟨?_, ?_, ?_, ?_⟩
  · simp [handleShowIndexesQuery]
  · intro k hk
    have hk2 : k < data.reverse.length := by simpa using hk
    simp only [handleShowIndexesQuery, List.getElem?_map]
    rw [List.getElem?_reverse hk]
  · intro item
    exact ⟨rfl, rfl, rfl⟩
  · intro item c hc hnd
    simpa [shapeIndex] using fields_fold_ordered (indexInfo item.name) [] hnd c hc

/-- A concrete introspection oracle for the C8 witness. -/
def demoIndexInfo : String → List ColumnRow := fun nm =>
  if nm = "idx_b" then [⟨1, "y"⟩, ⟨0, "x"⟩] else [⟨0, "z"⟩]

/-- Concrete engine-returned index rows for the C8 witness. -/
def demoIndexData : List IndexRow :=
  [⟨"idx_a", .num 1⟩, ⟨"idx_b", .num 0⟩]

/-- Witness for C8 at the concrete oracle and data, discharging the
bound, membership and distinctness hypotheses. -/
theorem show_indexes_C8_witness :
    (handleShowIndexesQuery demoIndexInfo demoIndexData)[0]?
      = (demoIndexData[demoIndexData.length - 1 - 0]?).map (shapeIndex demoIndexInfo) ∧
    (shapeIndex demoIndexInfo ⟨"idx_b", .num 0⟩).fields[(⟨0, "x"⟩ : ColumnRow).seqno]?
      = some (some { attrName := "x" }) :=
  ⟨(show_indexes_C8 demoIndexInfo demoIndexData).2.1 0 (by decide),
   (show_indexes_C8 demoIndexInfo demoIndexData).2.2.2 ⟨"idx_b", .num 0⟩ ⟨0, "x"⟩
     (by decide) (by decide)⟩

end Turso
